import Mathlib

/-!
Shallow embedding of the BigCommerce migration script (`src/index.js`).

The script copies brands, categories and products from a source store to a
destination store.  Network effects are modelled by a `World` of oracles:
per-endpoint page servers (one response per requested page number), a
per-call creation outcome, and an email outcome.  Mutable module state
(the in-memory `logs` buffer, the persisted log file, and the position in
the creation oracle) is threaded explicitly as `MigState`.

A log entry in the script is `"<timestamp>: <message>\n"`; the timestamp
comes from the wall clock, which is external to the model, so an entry is
modelled as `<message> ++ "\n"`.  The `while (true)` pagination loop is
modelled with fuel: a `none` result means the loop did not finish within
the given fuel.
-/

namespace BCMig

/-- A source-store brand (the fields the script reads). -/
structure Brand where
  id : Nat
  name : String
deriving Repr, DecidableEq

/-- A source-store category; `parent_id` may be absent (`undefined`). -/
structure Category where
  id : Nat
  parent_id : Option Nat
  name : String
deriving Repr, DecidableEq

/-- A source-store product; `weight` and `brand_id` may be absent. -/
structure Product where
  id : Nat
  name : String
  price : Int
  weight : Option Nat
  categories : List Nat
  brand_id : Option Nat
deriving Repr, DecidableEq

/-- JavaScript `x || d` for `x` a number-or-`undefined`:
`undefined` and `0` are falsy, every other number is truthy. -/
def jsOr (o : Option Nat) (d : Nat) : Nat :=
  match o with
  | none => d
  | some v => if v = 0 then d else v

/-- JavaScript `x || null` for `x` a number-or-`undefined`
(also the truthiness test of `.filter(id => id)`). -/
def jsOrNull (o : Option Nat) : Option Nat :=
  match o with
  | none => none
  | some v => if v = 0 then none else some v

/-- JavaScript `t || m` for `t` a string-or-`undefined`:
`undefined` and `""` are falsy. -/
def jsOrStr (t : Option String) (m : String) : String :=
  match t with
  | none => m
  | some v => if v = "" then m else v

/-- `Map.get` on a JavaScript `Map`, modelled as an insertion-ordered
association list with unique keys. -/
def mapGet (m : List (Nat × Nat)) (k : Nat) : Option Nat :=
  (m.find? (fun p => p.1 == k)).map (fun p => p.2)

/-- `Map.get` applied to a key that may itself be `undefined`
(`Map.get(undefined)` returns `undefined`). -/
def mapGetOpt (m : List (Nat × Nat)) (k : Option Nat) : Option Nat :=
  match k with
  | none => none
  | some i => mapGet m i

/-- `Map.set`: replaces the value of an existing key in place, otherwise
appends the new binding (JavaScript `Map`s iterate in insertion order). -/
def mapSet (m : List (Nat × Nat)) (k v : Nat) : List (Nat × Nat) :=
  if m.any (fun p => p.1 == k) then
    m.map (fun p => if p.1 == k then (k, v) else p)
  else
    m ++ [(k, v)]

/-- The script's mutable state: the in-memory `logs` buffer (reset at the
start of each run), the persisted log file (append-only across runs), and
how many creation requests have been issued so far (the position in the
creation-outcome oracle). -/
structure MigState where
  logs : List String
  logFile : List String
  createCalls : Nat
deriving Repr, DecidableEq

/-- `log(message)`: appends `message ++ "\n"` to both the in-memory buffer
and the persisted file (the wall-clock timestamp prefix is external to the
model, see the module docstring). -/
def log (message : String) (s : MigState) : MigState :=
  let logMessage := message ++ "\n"
  { s with logs := s.logs ++ [logMessage], logFile := s.logFile ++ [logMessage] }

/-- A server response to one page request: either a transport/API error
(the `catch` branch) or a page of items plus the presence of the
`meta.pagination.links.next` link. -/
inductive PageResp (α : Type) where
  | err (message : String)
  | ok (data : List α) (next : Bool)
deriving Repr, DecidableEq

/-- The destination store's response to one creation `POST`: the created
resource (its destination id) or a failure carrying the optional
`error.response.data.title` and the transport `error.message`. -/
inductive CreateOutcome where
  | success (destId : Nat)
  | failure (title : Option String) (message : String)
deriving Repr, DecidableEq

/-- The external world: one page server per fetched endpoint, the outcome
of the n-th creation request, and the email API outcome (`none` = sent,
`some e` = the send threw with message `e`). -/
structure World where
  brandServer : Nat → PageResp Brand
  categoryServer : Nat → PageResp Category
  productServer : Nat → PageResp Product
  createOutcome : Nat → CreateOutcome
  emailError : Option String

/-- The `while (true)` body of `fetchAllResources`, with fuel.
Starting at `page`, request each page, append its `data`, stop when the
`next` link is absent; a page error is logged and rethrown (`Except.error`).
`none` = the loop did not finish within `fuel` requests. -/
def fetchLoop (server : Nat → PageResp α) (endpoint : String) :
    Nat → Nat → List α → MigState → Option (Except String (List α) × MigState)
  | 0, _, _, _ => none
  | fuel + 1, page, resources, s =>
    match server page with
    | .err msg =>
      some (.error msg, log ("Error fetching " ++ endpoint ++ ": " ++ msg) s)
    | .ok data next =>
      if next then fetchLoop server endpoint fuel (page + 1) (resources ++ data) s
      else some (.ok (resources ++ data), s)

/-- `fetchAllResources(api, endpoint)`: walk pages starting at 1. -/
def fetchAllResources (server : Nat → PageResp α) (endpoint : String)
    (fuel : Nat) (s : MigState) : Option (Except String (List α) × MigState) :=
  fetchLoop server endpoint fuel 1 [] s

/-- `createResource(api, endpoint, data, type)`: issues one creation
request (advancing the oracle position), logs exactly one line, and
returns the created destination id or `none` — it never throws. -/
def createResource (w : World) (name ty : String) (s : MigState) :
    Option Nat × MigState :=
  let k := s.createCalls
  let s1 : MigState := { s with createCalls := k + 1 }
  match w.createOutcome k with
  | .success destId =>
    (some destId, log ("Created " ++ ty ++ ": " ++ name) s1)
  | .failure title message =>
    (none, log ("Failed to create " ++ ty ++ " " ++ name ++ ": " ++ jsOrStr title message) s1)

/-- The `for (const brand of brands)` loop of `migrateBrands`: create each
brand, and record `brand.id ↦ newBrand.id` only when creation succeeded. -/
def migrateBrandsLoop (w : World) :
    List Brand → List (Nat × Nat) → MigState → List (Nat × Nat) × MigState
  | [], brandMap, s => (brandMap, s)
  | brand :: rest, brandMap, s =>
    match createResource w brand.name "brand" s with
    | (some newId, s1) => migrateBrandsLoop w rest (mapSet brandMap brand.id newId) s1
    | (none, s1) => migrateBrandsLoop w rest brandMap s1

/-- `migrateBrands()`: fetch all source brands, then create each one,
returning the brand identifier map. -/
def migrateBrands (w : World) (fuel : Nat) (s : MigState) :
    Option (Except String (List (Nat × Nat)) × MigState) :=
  match fetchAllResources w.brandServer "/catalog/brands" fuel s with
  | none => none
  | some (.error e, s1) => some (.error e, s1)
  | some (.ok brands, s1) =>
    let r := migrateBrandsLoop w brands [] s1
    some (.ok r.1, r.2)

/-- The sort key `(c.parent_id || 0)` used by `migrateCategories`. -/
def parentKey (c : Category) : Nat :=
  jsOr c.parent_id 0

/-- The comparator `(a, b) => (a.parent_id || 0) - (b.parent_id || 0)`
as the "`a` stays before `b`" relation: the comparator is nonpositive
exactly when `parentKey a ≤ parentKey b`. -/
def catLE (a b : Category) : Bool :=
  parentKey a ≤ parentKey b

/-- `categories.sort((a, b) => (a.parent_id || 0) - (b.parent_id || 0))`:
a stable ascending sort on the parent key (`Array.prototype.sort` is
stable). -/
def sortCategories (categories : List Category) : List Category :=
  categories.mergeSort catLE

/-- The `newCategoryData` object posted for one category. -/
structure CategoryPayload where
  name : String
  parent_id : Nat
deriving Repr, DecidableEq

/-- The `for (const category of sortedCategories)` loop of
`migrateCategories`: build each payload with
`parent_id: categoryMap.get(category.parent_id) || 0`, create it, and
record `category.id ↦ newCategory.id` only on success.  The list of
payloads actually posted is returned alongside the map. -/
def migrateCategoriesLoop (w : World) :
    List Category → List (Nat × Nat) → List CategoryPayload → MigState →
      List (Nat × Nat) × List CategoryPayload × MigState
  | [], categoryMap, payloads, s => (categoryMap, payloads, s)
  | category :: rest, categoryMap, payloads, s =>
    let newCategoryData : CategoryPayload :=
      { name := category.name
        parent_id := jsOr (mapGetOpt categoryMap category.parent_id) 0 }
    match createResource w newCategoryData.name "category" s with
    | (some newId, s1) =>
      migrateCategoriesLoop w rest (mapSet categoryMap category.id newId)
        (payloads ++ [newCategoryData]) s1
    | (none, s1) =>
      migrateCategoriesLoop w rest categoryMap (payloads ++ [newCategoryData]) s1

/-- `migrateCategories()`: fetch all source categories, sort them by
parent key, then create each one in that order. -/
def migrateCategories (w : World) (fuel : Nat) (s : MigState) :
    Option (Except String (List (Nat × Nat) × List CategoryPayload) × MigState) :=
  match fetchAllResources w.categoryServer "/catalog/categories" fuel s with
  | none => none
  | some (.error e, s1) => some (.error e, s1)
  | some (.ok categories, s1) =>
    let sortedCategories := sortCategories categories
    let r := migrateCategoriesLoop w sortedCategories [] [] s1
    some (.ok (r.1, r.2.1), r.2.2)

/-- The `newProductData` object posted for one product. -/
structure ProductPayload where
  name : String
  type : String
  weight : Nat
  price : Int
  categories : List Nat
  brand_id : Option Nat
deriving Repr, DecidableEq

/-- The `newProductData` construction of `migrateProducts`:
`type: 'physical'`, `weight: product.weight || 0`, `price: product.price`,
`categories: product.categories.map(id => categoryMap.get(id)).filter(id => id)`,
`brand_id: brandMap.get(product.brand_id) || null`. -/
def buildProductPayload (brandMap categoryMap : List (Nat × Nat))
    (product : Product) : ProductPayload :=
  { name := product.name
    type := "physical"
    weight := jsOr product.weight 0
    price := product.price
    categories := (product.categories.map (fun i => mapGet categoryMap i)).filterMap jsOrNull
    brand_id := jsOrNull (mapGetOpt brandMap product.brand_id) }

/-- The `for (const product of products)` loop of `migrateProducts`:
build and post each payload (the creation result is not recorded). -/
def migrateProductsLoop (w : World) :
    List Product → List (Nat × Nat) → List (Nat × Nat) → List ProductPayload →
      MigState → List ProductPayload × MigState
  | [], _, _, payloads, s => (payloads, s)
  | product :: rest, brandMap, categoryMap, payloads, s =>
    let newProductData := buildProductPayload brandMap categoryMap product
    let r := createResource w newProductData.name "product" s
    migrateProductsLoop w rest brandMap categoryMap (payloads ++ [newProductData]) r.2

/-- `migrateProducts(brandMap, categoryMap)`: fetch all source products
and create each translated payload. -/
def migrateProducts (w : World) (fuel : Nat)
    (brandMap categoryMap : List (Nat × Nat)) (s : MigState) :
    Option (Except String (List ProductPayload) × MigState) :=
  match fetchAllResources w.productServer "/catalog/products" fuel s with
  | none => none
  | some (.error e, s1) => some (.error e, s1)
  | some (.ok products, s1) =>
    let r := migrateProductsLoop w products brandMap categoryMap [] s1
    some (.ok r.1, r.2)

/-- `sendEmailLog()`: dispatches `logs.join('')` as the log section of the
notification body, then logs the dispatch outcome.  Returns the dispatched
log content, or `none` when the send threw. -/
def sendEmailLog (w : World) (s : MigState) : Option String × MigState :=
  let logContent := String.join s.logs
  match w.emailError with
  | none => (some logContent, log "Email sent successfully" s)
  | some e => (none, log ("Failed to send email: " ++ e) s)

/-- The first two statements of `runMigration()`: reset the in-memory
log buffer, then log the run-start line. -/
def runStart (s : MigState) : MigState :=
  log "Starting migration..." { s with logs := [] }

/-- `runMigration()`: brands, then categories, then products; the `catch`
turns any stage (fetch) error into a `Migration failed` log line; every
path ends in `sendEmailLog`.  Returns the dispatched log content (if any)
and the final state; `none` = a pagination loop ran out of fuel. -/
def runMigration (w : World) (fuel : Nat) (s0 : MigState) :
    Option (Option String × MigState) :=
  let s := runStart s0
  match migrateBrands w fuel s with
  | none => none
  | some (.error e, s1) => some (sendEmailLog w (log ("Migration failed: " ++ e) s1))
  | some (.ok brandMap, s1) =>
    let s2 := log ("Migrated " ++ toString brandMap.length ++ " brands") s1
    match migrateCategories w fuel s2 with
    | none => none
    | some (.error e, s3) => some (sendEmailLog w (log ("Migration failed: " ++ e) s3))
    | some (.ok cats, s3) =>
      let categoryMap := cats.1
      let s4 := log ("Migrated " ++ toString categoryMap.length ++ " categories") s3
      match migrateProducts w fuel brandMap categoryMap s4 with
      | none => none
      | some (.error e, s5) => some (sendEmailLog w (log ("Migration failed: " ++ e) s5))
      | some (.ok _, s5) => some (sendEmailLog w (log "Migration completed" s5))

/-! ### Example worlds and states (used by witnesses and concrete examples) -/

/-- The three-category source set of the spec's worked example. -/
def exCats : List Category :=
  [⟨1, some 0, "A"⟩, ⟨2, some 1, "B"⟩, ⟨3, some 1, "C"⟩]

/-- A world where every fetch returns one page and every creation succeeds
with destination id `101 + call index`. -/
def exWorld : World where
  brandServer := fun _ => .ok [⟨11, "Acme"⟩] false
  categoryServer := fun _ => .ok exCats false
  productServer := fun _ => .ok [⟨21, "Widget", 10, none, [5, 6], some 9⟩] false
  createOutcome := fun k => .success (101 + k)
  emailError := none

/-- A world whose brand listing fails on its first page. -/
def exFailWorld : World where
  brandServer := fun _ => .err "Request failed with status code 500"
  categoryServer := fun _ => .ok [] false
  productServer := fun _ => .ok [] false
  createOutcome := fun _ => .failure none "socket hang up"
  emailError := some "invalid api key"

/-- A two-page brand listing: page 1 has a next link, page 2 does not. -/
def exPagedServer : Nat → PageResp Brand := fun p =>
  if p = 1 then .ok [⟨1, "A"⟩] true
  else if p = 2 then .ok [⟨2, "B"⟩] false
  else .err "no such page"

/-- A paginated listing whose second page request fails. -/
def exFailingServer : Nat → PageResp Brand := fun p =>
  if p = 1 then .ok [⟨1, "A"⟩] true
  else .err "Request failed with status code 500"

/-- A world whose brand listing fails on its first page but whose email
dispatch succeeds. -/
def exFailWorldMailOk : World where
  brandServer := fun _ => .err "Request failed with status code 500"
  categoryServer := fun _ => .ok [] false
  productServer := fun _ => .ok [] false
  createOutcome := fun _ => .failure none "socket hang up"
  emailError := none

/-- The initial state of a fresh process. -/
def exS0 : MigState := ⟨[], [], 0⟩

/-- The identifier map a stage run from state position `k0` is expected to
produce: one entry per source id whose creation request (at the matching
oracle position) was confirmed by the destination store. -/
def expectedMap (w : World) : Nat → List Nat → List (Nat × Nat)
  | _, [] => []
  | k0, i :: ids =>
    match w.createOutcome k0 with
    | .success destId => (i, destId) :: expectedMap w (k0 + 1) ids
    | .failure _ _ => expectedMap w (k0 + 1) ids

/-- Spec-side category translation, from the spec's words: each source
category reference is translated through the identifier map, and
references with no destination mapping are dropped.  (For comparison with
the code-side `buildProductPayload`.) -/
def specTranslateCategories (categoryMap : List (Nat × Nat)) (ids : List Nat) : List Nat :=
  ids.filterMap (fun i => mapGet categoryMap i)

/-! ### Helper lemmas -/

/-- Both log sinks of `s'` extend those of `s` by appended entries. -/
def LogsExtend (s s' : MigState) : Prop :=
  (∃ t, s'.logs = s.logs ++ t) ∧ (∃ t, s'.logFile = s.logFile ++ t)

theorem LogsExtend.rfl (s : MigState) : LogsExtend s s :=
  ⟨⟨[], by simp⟩, ⟨[], by simp⟩⟩

theorem LogsExtend.trans {s1 s2 s3 : MigState} (h1 : LogsExtend s1 s2)
    (h2 : LogsExtend s2 s3) : LogsExtend s1 s3 := by
  obtain ⟨⟨t1, ht1⟩, ⟨u1, hu1⟩⟩ := h1
  obtain ⟨⟨t2, ht2⟩, ⟨u2, hu2⟩⟩ := h2
  exact ⟨⟨t1 ++ t2, by simp [ht2, ht1]⟩, ⟨u1 ++ u2, by simp [hu2, hu1]⟩⟩

theorem logsExtend_log (m : String) (s : MigState) : LogsExtend s (log m s) :=
  ⟨⟨[m ++ "\n"], by simp [log]⟩, ⟨[m ++ "\n"], by simp [log]⟩⟩

theorem log_createCalls (m : String) (s : MigState) :
    (log m s).createCalls = s.createCalls := by
  simp [log]

theorem logsExtend_createResource (w : World) (name ty : String) (s : MigState) :
    LogsExtend s (createResource w name ty s).2 := by
  cases h : w.createOutcome s.createCalls with
  | success destId =>
    refine ⟨⟨["Created " ++ ty ++ ": " ++ name ++ "\n"], ?_⟩,
      ⟨["Created " ++ ty ++ ": " ++ name ++ "\n"], ?_⟩⟩ <;>
      · simp only [createResource, h]
        simp [log]
  | failure title message =>
    refine ⟨⟨["Failed to create " ++ ty ++ " " ++ name ++ ": " ++ jsOrStr title message ++ "\n"], ?_⟩,
      ⟨["Failed to create " ++ ty ++ " " ++ name ++ ": " ++ jsOrStr title message ++ "\n"], ?_⟩⟩ <;>
      · simp only [createResource, h]
        simp [log]

/-- The category loop threads its payload accumulator by appending. -/
theorem migrateCategoriesLoop_payloads_acc (w : World) (cats : List Category) :
    ∀ (m : List (Nat × Nat)) (ps : List CategoryPayload) (s : MigState),
      (migrateCategoriesLoop w cats m ps s).2.1 =
        ps ++ (migrateCategoriesLoop w cats m [] s).2.1 := by
  induction cats with
  | nil => intro m ps s; simp [migrateCategoriesLoop]
  | cons c rest ih =>
    intro m ps s
    simp only [migrateCategoriesLoop]
    cases hr : createResource w c.name "category" s with
    | mk o s1 =>
      cases o with
      | some newId =>
        simp only [hr]
        rw [ih, ih (mapSet m c.id newId) ([] ++ [_])]
        simp
      | none =>
        simp only [hr]
        rw [ih, ih m ([] ++ [_])]
        simp

/-- One payload is posted per source category: none is dropped. -/
theorem migrateCategoriesLoop_payloads_length (w : World) (cats : List Category) :
    ∀ (m : List (Nat × Nat)) (ps : List CategoryPayload) (s : MigState),
      (migrateCategoriesLoop w cats m ps s).2.1.length = ps.length + cats.length := by
  induction cats with
  | nil => intro m ps s; simp [migrateCategoriesLoop]
  | cons c rest ih =>
    intro m ps s
    simp only [migrateCategoriesLoop]
    cases hr : createResource w c.name "category" s with
    | mk o s1 =>
      cases o with
      | some newId => simp only [hr]; rw [ih]; simp; omega
      | none => simp only [hr]; rw [ih]; simp; omega

/-- The first payload the category loop posts for `c` carries
`parent_id = categoryMap.get(c.parent_id) || 0`. -/
theorem migrateCategoriesLoop_head (w : World) (c : Category) (rest : List Category)
    (m : List (Nat × Nat)) (ps : List CategoryPayload) (s : MigState) :
    ∃ later, (migrateCategoriesLoop w (c :: rest) m ps s).2.1 =
      ps ++ ({ name := c.name, parent_id := jsOr (mapGetOpt m c.parent_id) 0 } :
        CategoryPayload) :: later := by
  simp only [migrateCategoriesLoop]
  cases hr : createResource w c.name "category" s with
  | mk o s1 =>
    cases o with
    | some newId =>
      refine ⟨(migrateCategoriesLoop w rest (mapSet m c.id newId) [] s1).2.1, ?_⟩
      simp only [hr]
      rw [migrateCategoriesLoop_payloads_acc]
      simp
    | none =>
      refine ⟨(migrateCategoriesLoop w rest m [] s1).2.1, ?_⟩
      simp only [hr]
      rw [migrateCategoriesLoop_payloads_acc]
      simp

theorem mapGet_mem {m : List (Nat × Nat)} {k v : Nat} (h : mapGet m k = some v) :
    (k, v) ∈ m := by
  unfold mapGet at h
  obtain ⟨p, hfind, hv⟩ := Option.map_eq_some'.mp h
  have hk : p.1 = k := by
    have := List.find?_some hfind
    simpa using this
  have hm := List.mem_of_find?_eq_some hfind
  have : p = (k, v) := by
    cases p
    simp_all
  rwa [this] at hm

theorem jsOrNull_mapGet_of_nonzero {m : List (Nat × Nat)}
    (h : ∀ p ∈ m, p.2 ≠ 0) (i : Nat) : jsOrNull (mapGet m i) = mapGet m i := by
  cases hm : mapGet m i with
  | none => rfl
  | some v =>
    have hv : v ≠ 0 := h (i, v) (mapGet_mem hm)
    simp [jsOrNull, hv]

theorem buildProductPayload_categories_of_nonzero
    {categoryMap : List (Nat × Nat)} (hc : ∀ p ∈ categoryMap, p.2 ≠ 0)
    (brandMap : List (Nat × Nat)) (pr : Product) :
    (buildProductPayload brandMap categoryMap pr).categories =
      specTranslateCategories categoryMap pr.categories := by
  unfold buildProductPayload specTranslateCategories
  rw [List.filterMap_map]
  exact List.filterMap_congr
    (fun x _ => by simp [Function.comp, jsOrNull_mapGet_of_nonzero hc x])

theorem buildProductPayload_brand_of_nonzero
    {brandMap : List (Nat × Nat)} (hb : ∀ p ∈ brandMap, p.2 ≠ 0)
    (categoryMap : List (Nat × Nat)) (pr : Product) :
    (buildProductPayload brandMap categoryMap pr).brand_id =
      mapGetOpt brandMap pr.brand_id := by
  unfold buildProductPayload
  cases hbid : pr.brand_id with
  | none => simp [mapGetOpt, jsOrNull]
  | some b => simp [mapGetOpt, jsOrNull_mapGet_of_nonzero hb b]

theorem filterMap_drop_none {α β : Type} {f : α → Option β} {i : α} [DecidableEq α]
    (hf : f i = none) : ∀ l : List α, l.filterMap f = (l.filter (fun j => j ≠ i)).filterMap f := by
  intro l
  induction l with
  | nil => rfl
  | cons a t ih =>
    by_cases ha : a = i
    · subst ha
      simp [List.filterMap_cons, hf, ih]
    · simp [List.filterMap_cons, List.filter_cons, ha]
      cases hfa : f a <;> simp [hfa, ih]

/-- If the pages from `p` onward are `pages` (each with a next link
exactly when a later page exists), the fetch loop returns all their items
appended to the accumulator, with no state change. -/
theorem fetchLoop_pages_ok {α : Type} (server : Nat → PageResp α) (endpoint : String) :
    ∀ (pages : List (List α)) (p fuel : Nat) (acc : List α) (s : MigState),
      pages ≠ [] →
      (∀ j, j < pages.length →
        server (p + j) = .ok (pages.getD j []) (decide (j + 1 < pages.length))) →
      pages.length ≤ fuel →
      fetchLoop server endpoint fuel p acc s = some (.ok (acc ++ pages.flatten), s) := by
  intro pages
  induction pages with
  | nil => intro p fuel acc s hne; exact absurd rfl hne
  | cons d tail ih =>
    intro p fuel acc s hne hserver hfuel
    cases fuel with
    | zero => simp at hfuel
    | succ f =>
      have h0 := hserver 0 (by simp)
      simp only [Nat.add_zero, List.getD_cons_zero] at h0
      cases tail with
      | nil =>
        have h0' : server p = .ok d false := by
          rw [h0]
          norm_num
        simp only [fetchLoop, h0']
        simp
      | cons d2 t2 =>
        have h0' : server p = .ok d true := by
          rw [h0]
          norm_num
        simp only [fetchLoop, h0', if_true]
        rw [ih (p + 1) f (acc ++ d) s (by simp) ?_ ?_]
        · simp
        · intro j hj
          have hs := hserver (j + 1) (by simpa using Nat.succ_lt_succ hj)
          rw [show p + (j + 1) = p + 1 + j by omega] at hs
          rw [hs]
          simp only [List.getD_cons_succ]
          congr 1
          apply decide_eq_decide.mpr
          simp only [List.length_cons]
          omega
        · simp only [List.length_cons] at hfuel ⊢
          omega

/-- If pages `p .. p + k - 1` succeed with a next link and page `p + k`
fails, the loop logs the fetch error once and propagates it. -/
theorem fetchLoop_err {α : Type} {msg : String} (server : Nat → PageResp α) (endpoint : String) :
    ∀ (k p fuel : Nat) (acc : List α) (s : MigState),
      server (p + k) = .err msg →
      (∀ j, j < k → ∃ d, server (p + j) = .ok d true) →
      k < fuel →
      fetchLoop server endpoint fuel p acc s =
        some (.error msg, log ("Error fetching " ++ endpoint ++ ": " ++ msg) s) := by
  intro k
  induction k with
  | zero =>
    intro p fuel acc s hfail hbefore hfuel
    cases fuel with
    | zero => omega
    | succ f =>
      simp only [Nat.add_zero] at hfail
      simp only [fetchLoop, hfail]
  | succ k2 ih =>
    intro p fuel acc s hfail hbefore hfuel
    cases fuel with
    | zero => omega
    | succ f =>
      obtain ⟨d, hd⟩ := hbefore 0 (by omega)
      simp only [Nat.add_zero] at hd
      simp only [fetchLoop, hd, if_true]
      apply ih
      · rw [show p + 1 + k2 = p + (k2 + 1) by omega]
        exact hfail
      · intro j hj
        have hs := hbefore (j + 1) (by omega)
        rwa [show p + (j + 1) = p + 1 + j by omega] at hs
      · omega

theorem catLE_trans (a b c : Category) : catLE a b → catLE b c → catLE a c := by
  simp only [catLE, decide_eq_true_eq]
  omega

theorem catLE_total (a b : Category) : catLE a b || catLE b a := by
  simp only [catLE, Bool.or_eq_true, decide_eq_true_eq]
  omega

theorem createResource_success {w : World} {name ty : String} {s : MigState} {destId : Nat}
    (h : w.createOutcome s.createCalls = .success destId) :
    createResource w name ty s =
      (some destId, log ("Created " ++ ty ++ ": " ++ name)
        { s with createCalls := s.createCalls + 1 }) := by
  simp only [createResource, h]

theorem createResource_failure {w : World} {name ty : String} {s : MigState}
    {title : Option String} {message : String}
    (h : w.createOutcome s.createCalls = .failure title message) :
    createResource w name ty s =
      (none, log ("Failed to create " ++ ty ++ " " ++ name ++ ": " ++ jsOrStr title message)
        { s with createCalls := s.createCalls + 1 }) := by
  simp only [createResource, h]

theorem mapSet_append {m : List (Nat × Nat)} {k v : Nat}
    (h : ∀ p ∈ m, p.1 ≠ k) : mapSet m k v = m ++ [(k, v)] := by
  have hany : m.any (fun p => p.1 == k) = false := by
    simp only [List.any_eq_false, beq_eq_false_iff_ne, ne_eq]
    exact fun p hp => by simpa using h p hp
  simp [mapSet, hany]

/-- The brand loop produces exactly one map entry per confirmed creation,
appended in source order, and advances the creation counter once per
brand (failed creations included: processing continues). -/
theorem migrateBrandsLoop_map (w : World) :
    ∀ (brands : List Brand) (acc : List (Nat × Nat)) (s : MigState),
      (brands.map Brand.id).Nodup →
      (∀ b ∈ brands, ∀ p ∈ acc, p.1 ≠ b.id) →
      (migrateBrandsLoop w brands acc s).1 =
        acc ++ expectedMap w s.createCalls (brands.map Brand.id) ∧
      (migrateBrandsLoop w brands acc s).2.createCalls = s.createCalls + brands.length := by
  intro brands
  induction brands with
  | nil => intro acc s _ _; simp [migrateBrandsLoop, expectedMap]
  | cons b rest ih =>
    intro acc s hnd hfresh
    simp only [List.map_cons, List.nodup_cons] at hnd
    obtain ⟨hbid, hndr⟩ := hnd
    cases h : w.createOutcome s.createCalls with
    | success destId =>
      have hset : mapSet acc b.id destId = acc ++ [(b.id, destId)] :=
        mapSet_append (fun p hp => hfresh b (List.mem_cons_self b rest) p hp)
      have hfresh2 : ∀ b2 ∈ rest, ∀ p ∈ acc ++ [(b.id, destId)], p.1 ≠ b2.id := by
        intro b2 hb2 p hp
        rcases List.mem_append.mp hp with hpa | hpb
        · exact hfresh b2 (List.mem_cons_of_mem b hb2) p hpa
        · simp only [List.mem_singleton] at hpb
          rw [hpb]
          intro hcon
          apply hbid
          have hcon2 : b.id = b2.id := hcon
          rw [hcon2]
          exact List.mem_map_of_mem Brand.id hb2
      simp only [migrateBrandsLoop, createResource_success h, hset]
      obtain ⟨ih1, ih2⟩ := ih (acc ++ [(b.id, destId)])
        (log ("Created " ++ "brand" ++ ": " ++ b.name) { s with createCalls := s.createCalls + 1 })
        hndr hfresh2
      constructor
      · rw [ih1]
        simp [log, expectedMap, h]
      · rw [ih2]
        simp [log]
        omega
    | failure title message =>
      have hfresh2 : ∀ b2 ∈ rest, ∀ p ∈ acc, p.1 ≠ b2.id :=
        fun b2 hb2 p hp => hfresh b2 (List.mem_cons_of_mem b hb2) p hp
      simp only [migrateBrandsLoop, createResource_failure h]
      obtain ⟨ih1, ih2⟩ := ih acc
        (log ("Failed to create " ++ "brand" ++ " " ++ b.name ++ ": " ++ jsOrStr title message)
          { s with createCalls := s.createCalls + 1 })
        hndr hfresh2
      constructor
      · rw [ih1]
        simp [log, expectedMap, h]
      · rw [ih2]
        simp [log]
        omega

/-- Same fact for the category loop's identifier map. -/
theorem migrateCategoriesLoop_map (w : World) :
    ∀ (cats : List Category) (acc : List (Nat × Nat)) (ps : List CategoryPayload) (s : MigState),
      (cats.map Category.id).Nodup →
      (∀ c ∈ cats, ∀ p ∈ acc, p.1 ≠ c.id) →
      (migrateCategoriesLoop w cats acc ps s).1 =
        acc ++ expectedMap w s.createCalls (cats.map Category.id) ∧
      (migrateCategoriesLoop w cats acc ps s).2.2.createCalls = s.createCalls + cats.length := by
  intro cats
  induction cats with
  | nil => intro acc ps s _ _; simp [migrateCategoriesLoop, expectedMap]
  | cons c rest ih =>
    intro acc ps s hnd hfresh
    simp only [List.map_cons, List.nodup_cons] at hnd
    obtain ⟨hcid, hndr⟩ := hnd
    cases h : w.createOutcome s.createCalls with
    | success destId =>
      have hset : mapSet acc c.id destId = acc ++ [(c.id, destId)] :=
        mapSet_append (fun p hp => hfresh c (List.mem_cons_self c rest) p hp)
      have hfresh2 : ∀ c2 ∈ rest, ∀ p ∈ acc ++ [(c.id, destId)], p.1 ≠ c2.id := by
        intro c2 hc2 p hp
        rcases List.mem_append.mp hp with hpa | hpb
        · exact hfresh c2 (List.mem_cons_of_mem c hc2) p hpa
        · simp only [List.mem_singleton] at hpb
          rw [hpb]
          intro hcon
          apply hcid
          have hcon2 : c.id = c2.id := hcon
          rw [hcon2]
          exact List.mem_map_of_mem Category.id hc2
      simp only [migrateCategoriesLoop, createResource_success h, hset]
      obtain ⟨ih1, ih2⟩ := ih (acc ++ [(c.id, destId)]) (ps ++ [_])
        (log ("Created " ++ "category" ++ ": " ++ c.name) { s with createCalls := s.createCalls + 1 })
        hndr hfresh2
      constructor
      · rw [ih1]
        simp [log, expectedMap, h]
      · rw [ih2]
        simp [log]
        omega
    | failure title message =>
      have hfresh2 : ∀ c2 ∈ rest, ∀ p ∈ acc, p.1 ≠ c2.id :=
        fun c2 hc2 p hp => hfresh c2 (List.mem_cons_of_mem c hc2) p hp
      simp only [migrateCategoriesLoop, createResource_failure h]
      obtain ⟨ih1, ih2⟩ := ih acc (ps ++ [_])
        (log ("Failed to create " ++ "category" ++ " " ++ c.name ++ ": " ++ jsOrStr title message)
          { s with createCalls := s.createCalls + 1 })
        hndr hfresh2
      constructor
      · rw [ih1]
        simp [log, expectedMap, h]
      · rw [ih2]
        simp [log]
        omega

/-- A pair is in the expected map exactly when the destination store
confirmed the creation of that source id at its position. -/
theorem expectedMap_mem (w : World) :
    ∀ (ids : List Nat) (k0 k v : Nat),
      ((k, v) ∈ expectedMap w k0 ids ↔
        ∃ j, ids[j]? = some k ∧ w.createOutcome (k0 + j) = .success v) := by
  intro ids
  induction ids with
  | nil =>
    intro k0 k v
    simp [expectedMap]
  | cons i rest ih =>
    intro k0 k v
    cases h : w.createOutcome k0 with
    | success d =>
      simp only [expectedMap, h, List.mem_cons]
      constructor
      · rintro (heq | hmem)
        · obtain ⟨hk, hv⟩ := Prod.mk.injEq .. ▸ heq
          refine ⟨0, ?_, ?_⟩
          · simp [hk]
          · rw [Nat.add_zero, h, hv]
        · obtain ⟨j, hj, ho⟩ := (ih (k0 + 1) k v).mp hmem
          refine ⟨j + 1, by simpa using hj, ?_⟩
          rwa [show k0 + (j + 1) = k0 + 1 + j by omega]
      · rintro ⟨j, hj, ho⟩
        cases j with
        | zero =>
          left
          simp only [List.getElem?_cons_zero, Option.some.injEq] at hj
          rw [Nat.add_zero, h] at ho
          cases ho
          rw [hj]
        | succ j2 =>
          right
          refine (ih (k0 + 1) k v).mpr ⟨j2, by simpa using hj, ?_⟩
          rwa [show k0 + 1 + j2 = k0 + (j2 + 1) by omega]
    | failure title message =>
      simp only [expectedMap, h]
      constructor
      · intro hmem
        obtain ⟨j, hj, ho⟩ := (ih (k0 + 1) k v).mp hmem
        refine ⟨j + 1, by simpa using hj, ?_⟩
        rwa [show k0 + (j + 1) = k0 + 1 + j by omega]
      · rintro ⟨j, hj, ho⟩
        cases j with
        | zero =>
          rw [Nat.add_zero, h] at ho
          cases ho
        | succ j2 =>
          refine (ih (k0 + 1) k v).mpr ⟨j2, by simpa using hj, ?_⟩
          rwa [show k0 + 1 + j2 = k0 + (j2 + 1) by omega]

theorem logsExtend_fetchLoop {α : Type} (server : Nat → PageResp α) (endpoint : String) :
    ∀ (fuel page : Nat) (acc : List α) (s : MigState) (r : Except String (List α)) (s' : MigState),
      fetchLoop server endpoint fuel page acc s = some (r, s') → LogsExtend s s' := by
  intro fuel
  induction fuel with
  | zero => intro page acc s r s' h; cases h
  | succ f ih =>
    intro page acc s r s' h
    simp only [fetchLoop] at h
    cases hs : server page with
    | err msg =>
      rw [hs] at h
      have h2 : log ("Error fetching " ++ endpoint ++ ": " ++ msg) s = s' :=
        congrArg Prod.snd (Option.some.inj h)
      rw [← h2]
      exact logsExtend_log _ s
    | ok data next =>
      rw [hs] at h
      cases next with
      | true =>
        simp only [if_true] at h
        exact ih (page + 1) (acc ++ data) s r s' h
      | false =>
        simp only [Bool.false_eq_true, if_false] at h
        have h2 : s = s' := congrArg Prod.snd (Option.some.inj h)
        rw [← h2]
        exact LogsExtend.rfl s

theorem logsExtend_fetchAllResources {α : Type} (server : Nat → PageResp α) (endpoint : String)
    (fuel : Nat) (s : MigState) (r : Except String (List α)) (s' : MigState)
    (h : fetchAllResources server endpoint fuel s = some (r, s')) : LogsExtend s s' :=
  logsExtend_fetchLoop server endpoint fuel 1 [] s r s' h

theorem logsExtend_migrateBrandsLoop (w : World) :
    ∀ (brands : List Brand) (acc : List (Nat × Nat)) (s : MigState),
      LogsExtend s (migrateBrandsLoop w brands acc s).2 := by
  intro brands
  induction brands with
  | nil => intro acc s; exact LogsExtend.rfl s
  | cons b rest ih =>
    intro acc s
    simp only [migrateBrandsLoop]
    cases hr : createResource w b.name "brand" s with
    | mk o s1 =>
      have hext : LogsExtend s s1 := by
        have := logsExtend_createResource w b.name "brand" s
        rwa [hr] at this
      cases o with
      | some newId => exact hext.trans (ih (mapSet acc b.id newId) s1)
      | none => exact hext.trans (ih acc s1)

theorem logsExtend_migrateCategoriesLoop (w : World) :
    ∀ (cats : List Category) (acc : List (Nat × Nat)) (ps : List CategoryPayload) (s : MigState),
      LogsExtend s (migrateCategoriesLoop w cats acc ps s).2.2 := by
  intro cats
  induction cats with
  | nil => intro acc ps s; exact LogsExtend.rfl s
  | cons c rest ih =>
    intro acc ps s
    simp only [migrateCategoriesLoop]
    cases hr : createResource w c.name "category" s with
    | mk o s1 =>
      have hext : LogsExtend s s1 := by
        have := logsExtend_createResource w c.name "category" s
        rwa [hr] at this
      cases o with
      | some newId => exact hext.trans (ih (mapSet acc c.id newId) (ps ++ [_]) s1)
      | none => exact hext.trans (ih acc (ps ++ [_]) s1)

theorem logsExtend_migrateProductsLoop (w : World) :
    ∀ (products : List Product) (bm cm : List (Nat × Nat)) (ps : List ProductPayload)
      (s : MigState), LogsExtend s (migrateProductsLoop w products bm cm ps s).2 := by
  intro products
  induction products with
  | nil => intro bm cm ps s; exact LogsExtend.rfl s
  | cons pr rest ih =>
    intro bm cm ps s
    simp only [migrateProductsLoop]
    exact (logsExtend_createResource w (buildProductPayload bm cm pr).name "product" s).trans
      (ih bm cm (ps ++ [_]) _)

theorem logsExtend_migrateBrands (w : World) (fuel : Nat) (s : MigState)
    (r : Except String (List (Nat × Nat))) (s' : MigState)
    (h : migrateBrands w fuel s = some (r, s')) : LogsExtend s s' := by
  simp only [migrateBrands] at h
  rcases hf : fetchAllResources w.brandServer "/catalog/brands" fuel s with _ | ⟨ef, s1⟩
  · rw [hf] at h; cases h
  · rw [hf] at h
    have hext := logsExtend_fetchAllResources w.brandServer "/catalog/brands" fuel s ef s1 hf
    cases ef with
    | error e =>
      have h2 : s1 = s' := congrArg Prod.snd (Option.some.inj h)
      rw [← h2]
      exact hext
    | ok brands =>
      have h2 : (migrateBrandsLoop w brands [] s1).2 = s' :=
        congrArg Prod.snd (Option.some.inj h)
      rw [← h2]
      exact hext.trans (logsExtend_migrateBrandsLoop w brands [] s1)

theorem logsExtend_migrateCategories (w : World) (fuel : Nat) (s : MigState)
    (r : Except String (List (Nat × Nat) × List CategoryPayload)) (s' : MigState)
    (h : migrateCategories w fuel s = some (r, s')) : LogsExtend s s' := by
  simp only [migrateCategories] at h
  rcases hf : fetchAllResources w.categoryServer "/catalog/categories" fuel s with _ | ⟨ef, s1⟩
  · rw [hf] at h; cases h
  · rw [hf] at h
    have hext := logsExtend_fetchAllResources w.categoryServer "/catalog/categories" fuel s ef s1 hf
    cases ef with
    | error e =>
      have h2 : s1 = s' := congrArg Prod.snd (Option.some.inj h)
      rw [← h2]
      exact hext
    | ok cats =>
      have h2 : (migrateCategoriesLoop w (sortCategories cats) [] [] s1).2.2 = s' :=
        congrArg Prod.snd (Option.some.inj h)
      rw [← h2]
      exact hext.trans (logsExtend_migrateCategoriesLoop w (sortCategories cats) [] [] s1)

theorem logsExtend_migrateProducts (w : World) (fuel : Nat) (bm cm : List (Nat × Nat))
    (s : MigState) (r : Except String (List ProductPayload)) (s' : MigState)
    (h : migrateProducts w fuel bm cm s = some (r, s')) : LogsExtend s s' := by
  simp only [migrateProducts] at h
  rcases hf : fetchAllResources w.productServer "/catalog/products" fuel s with _ | ⟨ef, s1⟩
  · rw [hf] at h; cases h
  · rw [hf] at h
    have hext := logsExtend_fetchAllResources w.productServer "/catalog/products" fuel s ef s1 hf
    cases ef with
    | error e =>
      have h2 : s1 = s' := congrArg Prod.snd (Option.some.inj h)
      rw [← h2]
      exact hext
    | ok products =>
      have h2 : (migrateProductsLoop w products bm cm [] s1).2 = s' :=
        congrArg Prod.snd (Option.some.inj h)
      rw [← h2]
      exact hext.trans (logsExtend_migrateProductsLoop w products bm cm [] s1)

/-- Every completed model run ends in the reporting step, applied to a
state that extends the run-start state. -/
theorem runMigration_report (w : World) (fuel : Nat) (s : MigState) (out : Option String)
    (s' : MigState) (h : runMigration w fuel s = some (out, s')) :
    ∃ sMid, (out, s') = sendEmailLog w sMid ∧ LogsExtend (runStart s) sMid := by
  simp only [runMigration] at h
  split at h
  · cases h
  · rename_i e s1 heq
    exact ⟨log ("Migration failed: " ++ e) s1, (Option.some.inj h).symm,
      (logsExtend_migrateBrands w fuel _ _ _ heq).trans (logsExtend_log _ _)⟩
  · rename_i bm s1 heq
    have hext1 : LogsExtend (runStart s)
        (log ("Migrated " ++ toString bm.length ++ " brands") s1) :=
      (logsExtend_migrateBrands w fuel _ _ _ heq).trans (logsExtend_log _ _)
    split at h
    · cases h
    · rename_i e s2 heq2
      exact ⟨log ("Migration failed: " ++ e) s2, (Option.some.inj h).symm,
        (hext1.trans (logsExtend_migrateCategories w fuel _ _ _ heq2)).trans
          (logsExtend_log _ _)⟩
    · rename_i cats s2 heq2
      have hext2 : LogsExtend (runStart s)
          (log ("Migrated " ++ toString cats.1.length ++ " categories") s2) :=
        (hext1.trans (logsExtend_migrateCategories w fuel _ _ _ heq2)).trans
          (logsExtend_log _ _)
      split at h
      · cases h
      · rename_i e s3 heq3
        exact ⟨log ("Migration failed: " ++ e) s3, (Option.some.inj h).symm,
          (hext2.trans (logsExtend_migrateProducts w fuel _ _ _ _ _ heq3)).trans
            (logsExtend_log _ _)⟩
      · rename_i pl s3 heq3
        exact ⟨log "Migration completed" s3, (Option.some.inj h).symm,
          (hext2.trans (logsExtend_migrateProducts w fuel _ _ _ _ _ heq3)).trans
            (logsExtend_log _ _)⟩

/-- The product loop posts exactly one translated payload per source
product, in source order. -/
theorem migrateProductsLoop_payloads (w : World) :
    ∀ (products : List Product) (bm cm : List (Nat × Nat)) (ps : List ProductPayload)
      (s : MigState),
      (migrateProductsLoop w products bm cm ps s).1 =
        ps ++ products.map (buildProductPayload bm cm) := by
  intro products
  induction products with
  | nil => intro bm cm ps s; simp [migrateProductsLoop]
  | cons pr rest ih =>
    intro bm cm ps s
    simp only [migrateProductsLoop]
    rw [ih]
    simp

theorem jsOr_zero (o : Option Nat) : jsOr o 0 = o.getD 0 := by
  cases o with
  | none => rfl
  | some v =>
    by_cases hv : v = 0
    · simp [jsOr, hv]
    · simp [jsOr, hv]

/-! ### Claim theorems -/

/-- C5: `createResource` never throws: it always returns (a destination id
on success, the explicit `null` signal on failure) and appends exactly one
log entry — a success entry naming the resource, or a failure entry naming
the resource and the server-reported error detail, falling back to the
transport error message when the server reported none. -/
theorem createResource_logs_once_never_throws (w : World) (name ty : String) (s : MigState) :
    ∃ entry : String,
      (createResource w name ty s).2.logs = s.logs ++ [entry] ∧
      (createResource w name ty s).2.logFile = s.logFile ++ [entry] ∧
      (∀ destId, w.createOutcome s.createCalls = .success destId →
        (createResource w name ty s).1 = some destId ∧
        entry = "Created " ++ ty ++ ": " ++ name ++ "\n") ∧
      (∀ title message, w.createOutcome s.createCalls = .failure title message →
        (createResource w name ty s).1 = none ∧
        entry = "Failed to create " ++ ty ++ " " ++ name ++ ": " ++ jsOrStr title message ++ "\n" ∧
        (title = none → jsOrStr title message = message)) := by
  cases h : w.createOutcome s.createCalls with
  | success destId =>
    refine ⟨"Created " ++ ty ++ ": " ++ name ++ "\n", ?_, ?_, ?_, ?_⟩ <;>
      · simp only [createResource, h]
        simp [log, jsOrStr]
  | failure title message =>
    refine ⟨"Failed to create " ++ ty ++ " " ++ name ++ ": " ++ jsOrStr title message ++ "\n",
      ?_, ?_, ?_, ?_⟩
    · simp only [createResource, h]
      simp [log]
    · simp only [createResource, h]
      simp [log]
    · simp only [createResource, h]
      simp [log]
    · rintro title2 message2 heq
      cases heq
      refine ⟨?_, rfl, ?_⟩
      · simp only [createResource, h]
      · rintro rfl
        rfl

/-- Witness for C5 at a concrete call. -/
theorem createResource_logs_once_never_throws_witness :
    ∃ entry : String,
      (createResource exWorld "Acme" "brand" exS0).2.logs = exS0.logs ++ [entry] ∧
      (createResource exWorld "Acme" "brand" exS0).2.logFile = exS0.logFile ++ [entry] ∧
      (∀ destId, exWorld.createOutcome exS0.createCalls = .success destId →
        (createResource exWorld "Acme" "brand" exS0).1 = some destId ∧
        entry = "Created " ++ "brand" ++ ": " ++ "Acme" ++ "\n") ∧
      (∀ title message, exWorld.createOutcome exS0.createCalls = .failure title message →
        (createResource exWorld "Acme" "brand" exS0).1 = none ∧
        entry = "Failed to create " ++ "brand" ++ " " ++ "Acme" ++ ": " ++
          jsOrStr title message ++ "\n" ∧
        (title = none → jsOrStr title message = message)) :=
  createResource_logs_once_never_throws exWorld "Acme" "brand" exS0

/-- C8: a category whose source parent has no entry in the category map at
the time it is processed is still posted (no category is ever dropped),
with destination `parent_id = 0` (the root). -/
theorem unmapped_parent_resolves_to_root (w : World) (c : Category) (rest : List Category)
    (categoryMap : List (Nat × Nat)) (s : MigState)
    (h : mapGetOpt categoryMap c.parent_id = none) :
    (∃ later, (migrateCategoriesLoop w (c :: rest) categoryMap [] s).2.1 =
      ({ name := c.name, parent_id := 0 } : CategoryPayload) :: later) ∧
    (∀ (cats : List Category) (m : List (Nat × Nat)) (ps : List CategoryPayload)
      (s0 : MigState),
      (migrateCategoriesLoop w cats m ps s0).2.1.length = ps.length + cats.length) := by
  constructor
  · obtain ⟨later, hl⟩ := migrateCategoriesLoop_head w c rest categoryMap [] s
    refine ⟨later, ?_⟩
    rw [hl, h]
    rfl
  · exact fun cats m ps s0 => migrateCategoriesLoop_payloads_length w cats m ps s0

/-- Witness for C8: a category whose parent id 7 is absent from the map. -/
theorem unmapped_parent_resolves_to_root_witness :
    (∃ later, (migrateCategoriesLoop exWorld (⟨4, some 7, "D"⟩ :: []) [(1, 101)] [] exS0).2.1 =
      ({ name := "D", parent_id := 0 } : CategoryPayload) :: later) ∧
    (∀ (cats : List Category) (m : List (Nat × Nat)) (ps : List CategoryPayload)
      (s0 : MigState),
      (migrateCategoriesLoop exWorld cats m ps s0).2.1.length = ps.length + cats.length) :=
  unmapped_parent_resolves_to_root exWorld ⟨4, some 7, "D"⟩ [] [(1, 101)] exS0 (by decide)

/-- C9: destination ids are consumed through truthiness tests, so an id
equal to 0 behaves like a missing mapping: a category mapped to 0
contributes nothing to a product's `categories` (it is filtered out), a
parent mapped to 0 resolves to the root 0, and a brand mapped to 0 yields
`brand_id = null`; when every stored destination id is nonzero, this
coincides with map-membership (drop unmapped / null unmapped). -/
theorem zero_id_truthiness (w : World) :
    (∀ (brandMap categoryMap : List (Nat × Nat)) (i : Nat) (pr : Product),
      mapGet categoryMap i = some 0 →
      (buildProductPayload brandMap categoryMap pr).categories =
        (buildProductPayload brandMap categoryMap
          { pr with categories := pr.categories.filter (fun j => j ≠ i) }).categories) ∧
    (∀ (c : Category) (rest : List Category) (categoryMap : List (Nat × Nat))
      (ps : List CategoryPayload) (s : MigState),
      mapGetOpt categoryMap c.parent_id = some 0 →
      ∃ later, (migrateCategoriesLoop w (c :: rest) categoryMap ps s).2.1 =
        ps ++ ({ name := c.name, parent_id := 0 } : CategoryPayload) :: later) ∧
    (∀ (brandMap categoryMap : List (Nat × Nat)) (pr : Product),
      mapGetOpt brandMap pr.brand_id = some 0 →
      (buildProductPayload brandMap categoryMap pr).brand_id = none) ∧
    (∀ (brandMap categoryMap : List (Nat × Nat)) (pr : Product),
      (∀ p ∈ brandMap, p.2 ≠ 0) → (∀ p ∈ categoryMap, p.2 ≠ 0) →
      (buildProductPayload brandMap categoryMap pr).categories =
        specTranslateCategories categoryMap pr.categories ∧
      (buildProductPayload brandMap categoryMap pr).brand_id =
        mapGetOpt brandMap pr.brand_id) := by
  refine ⟨?_, ?_, ?_, ?_⟩
  · intro brandMap categoryMap i pr h
    unfold buildProductPayload
    simp only [List.filterMap_map]
    exact filterMap_drop_none (by simp [Function.comp, h, jsOrNull]) pr.categories
  · intro c rest categoryMap ps s h
    obtain ⟨later, hl⟩ := migrateCategoriesLoop_head w c rest categoryMap ps s
    refine ⟨later, ?_⟩
    rw [hl, h]
    rfl
  · intro brandMap categoryMap pr h
    unfold buildProductPayload
    simp [h, jsOrNull]
  · intro brandMap categoryMap pr hb hc
    exact ⟨buildProductPayload_categories_of_nonzero hc brandMap pr,
      buildProductPayload_brand_of_nonzero hb categoryMap pr⟩

/-- Witness for C9 at concrete maps containing a zero destination id. -/
theorem zero_id_truthiness_witness :
    ((buildProductPayload [(9, 0)] [(5, 0)] ⟨21, "W", 10, none, [5], some 9⟩).categories =
      (buildProductPayload [(9, 0)] [(5, 0)]
        { (⟨21, "W", 10, none, [5], some 9⟩ : Product) with
          categories := [5].filter (fun j => j ≠ 5) }).categories) ∧
    ((buildProductPayload [(9, 0)] [(5, 0)] ⟨21, "W", 10, none, [5], some 9⟩).brand_id = none) ∧
    ((buildProductPayload [(9, 90)] [(5, 50)] ⟨21, "W", 10, none, [5, 6], some 9⟩).categories =
      specTranslateCategories [(5, 50)] [5, 6] ∧
     (buildProductPayload [(9, 90)] [(5, 50)] ⟨21, "W", 10, none, [5, 6], some 9⟩).brand_id =
      mapGetOpt [(9, 90)] (some 9)) := by
  refine ⟨?_, ?_, ?_⟩
  · exact (zero_id_truthiness exWorld).1 [(9, 0)] [(5, 0)] 5 ⟨21, "W", 10, none, [5], some 9⟩
      (by decide)
  · exact (zero_id_truthiness exWorld).2.2.1 [(9, 0)] [(5, 0)] ⟨21, "W", 10, none, [5], some 9⟩
      (by decide)
  · exact (zero_id_truthiness exWorld).2.2.2 [(9, 90)] [(5, 50)] ⟨21, "W", 10, none, [5, 6], some 9⟩
      (by decide) (by decide)

/-- C1: category migration processes the fetched categories in a stable
ascending sort on the parent key (absent parent treated as 0): the
processing order is sorted by parent key, equal-keyed categories keep
their fetched relative order, each created category's `parent_id` is the
destination id already recorded for its source parent, and on the source
input `[{id:1,parent:0},{id:2,parent:1},{id:3,parent:1}]` with all
creations succeeding, the payloads for source ids 2 and 3 both carry the
destination id created for source id 1. -/
theorem category_sort_stable_and_parent_remap :
    (∀ cats : List Category,
      (sortCategories cats).Pairwise (fun a b => parentKey a ≤ parentKey b)) ∧
    (∀ (cats : List Category) (k : Nat),
      (sortCategories cats).filter (fun c => parentKey c == k) =
        cats.filter (fun c => parentKey c == k)) ∧
    (∀ (w : World) (c : Category) (rest : List Category) (m : List (Nat × Nat))
      (ps : List CategoryPayload) (s : MigState) (d : Nat),
      mapGetOpt m c.parent_id = some d → d ≠ 0 →
      ∃ later, (migrateCategoriesLoop w (c :: rest) m ps s).2.1 =
        ps ++ ({ name := c.name, parent_id := d } : CategoryPayload) :: later) ∧
    (∃ (d : Nat) (m : List (Nat × Nat)) (ps : List CategoryPayload) (s : MigState),
      migrateCategories exWorld 1 exS0 = some (.ok (m, ps), s) ∧
      mapGet m 1 = some d ∧
      ps.map CategoryPayload.parent_id = [0, d, d]) := by
  have hsortedEx : sortCategories exCats = exCats := by
    apply List.mergeSort_of_sorted
    decide
  refine ⟨?_, ?_, ?_, ?_⟩
  · intro cats
    have h := List.sorted_mergeSort catLE_trans catLE_total cats
    exact h.imp (fun hab => by simpa [catLE] using hab)
  · intro cats k
    have hpw : (cats.filter (fun c => parentKey c == k)).Pairwise (fun a b => catLE a b) := by
      apply List.pairwise_of_forall_mem_list
      intro a ha b hb
      have hak := (List.mem_filter.mp ha).2
      have hbk := (List.mem_filter.mp hb).2
      simp only [beq_iff_eq] at hak hbk
      simp [catLE, hak, hbk]
    have hsub : List.Sublist (cats.filter (fun c => parentKey c == k)) (sortCategories cats) :=
      List.sublist_mergeSort catLE_trans catLE_total hpw (List.filter_sublist cats)
    have hsubf : List.Sublist (cats.filter (fun c => parentKey c == k))
        ((sortCategories cats).filter (fun c => parentKey c == k)) := by
      have h2 := hsub.filter (fun c => parentKey c == k)
      simpa using h2
    have hperm : List.Perm ((sortCategories cats).filter (fun c => parentKey c == k))
        (cats.filter (fun c => parentKey c == k)) :=
      (List.mergeSort_perm cats catLE).filter _
    exact (hsubf.eq_of_length hperm.length_eq.symm).symm
  · intro w c rest m ps s d hd hdz
    obtain ⟨later, hl⟩ := migrateCategoriesLoop_head w c rest m ps s
    refine ⟨later, ?_⟩
    rw [hl, hd]
    simp [jsOr, hdz]
  · refine ⟨101, [(1, 101), (2, 102), (3, 103)],
      [⟨"A", 0⟩, ⟨"B", 101⟩, ⟨"C", 101⟩],
      ⟨["Created category: A\n", "Created category: B\n", "Created category: C\n"],
       ["Created category: A\n", "Created category: B\n", "Created category: C\n"], 3⟩,
      ?_, ?_, ?_⟩
    · have h2 : migrateCategories exWorld 1 exS0 =
          some (.ok ((migrateCategoriesLoop exWorld (sortCategories exCats) [] [] exS0).1,
            (migrateCategoriesLoop exWorld (sortCategories exCats) [] [] exS0).2.1),
            (migrateCategoriesLoop exWorld (sortCategories exCats) [] [] exS0).2.2) := rfl
      rw [h2, hsortedEx]
      rfl
    · rfl
    · rfl

/-- C4: if page `k` of a paginated fetch fails, the fetch logs the error
and propagates it; the caller observes `Except.error`, never a partial
item list. -/
theorem fetch_page_failure_aborts {α : Type} (server : Nat → PageResp α)
    (endpoint : String) (k fuel : Nat) (msg : String) (s : MigState)
    (hk : 1 ≤ k) (hfuel : k ≤ fuel)
    (hbefore : ∀ j, 1 ≤ j → j < k → ∃ d, server j = .ok d true)
    (hfail : server k = .err msg) :
    fetchAllResources server endpoint fuel s =
      some (.error msg, log ("Error fetching " ++ endpoint ++ ": " ++ msg) s) ∧
    ∀ (items : List α) (s' : MigState),
      fetchAllResources server endpoint fuel s ≠ some (.ok items, s') := by
  have main : fetchAllResources server endpoint fuel s =
      some (.error msg, log ("Error fetching " ++ endpoint ++ ": " ++ msg) s) := by
    unfold fetchAllResources
    apply fetchLoop_err
    · rw [show 1 + (k - 1) = k by omega]
      exact hfail
    · intro j hj
      have := hbefore (1 + j) (by omega) (by omega)
      exact this
    · omega
  refine ⟨main, ?_⟩
  intro items s' hcontra
  rw [main] at hcontra
  simp at hcontra

/-- Witness for C1's parent-remapping clause: a category whose parent 1 is
mapped to 101 is posted with `parent_id = 101`. -/
theorem category_sort_stable_and_parent_remap_witness :
    ∃ later, (migrateCategoriesLoop exWorld (⟨5, some 1, "E"⟩ :: []) [(1, 101)] [] exS0).2.1 =
      [] ++ ({ name := "E", parent_id := 101 } : CategoryPayload) :: later :=
  category_sort_stable_and_parent_remap.2.2.1 exWorld ⟨5, some 1, "E"⟩ [] [(1, 101)] [] exS0 101
    (by decide) (by decide)

/-- Witness for C4: a two-page listing whose second page request fails. -/
theorem fetch_page_failure_aborts_witness :
    (fetchAllResources exFailingServer "/catalog/brands" 3 exS0 =
      some (.error "Request failed with status code 500",
        log ("Error fetching " ++ "/catalog/brands" ++ ": " ++
          "Request failed with status code 500") exS0)) ∧
    ∀ (items : List Brand) (s' : MigState),
      fetchAllResources exFailingServer "/catalog/brands" 3 exS0 ≠ some (.ok items, s') :=
  fetch_page_failure_aborts exFailingServer "/catalog/brands" 2 3
    "Request failed with status code 500" exS0 (by omega) (by omega)
    (fun j h1 h2 => ⟨[⟨1, "A"⟩], by
      have hj : j = 1 := by omega
      subst hj
      rfl⟩)
    rfl

/-- C6: the brand and category identifier maps contain exactly one entry
per source item whose creation the destination store confirmed, inserted
in processing order; a failed creation leaves no entry and the loop still
advances to the next item (the creation counter grows by the full item
count); membership in the map is equivalent to a confirmed creation at
that item's position. -/
theorem identifier_map_confirmed_entries (w : World) :
    (∀ (brands : List Brand) (s : MigState), (brands.map Brand.id).Nodup →
      (migrateBrandsLoop w brands [] s).1 =
        expectedMap w s.createCalls (brands.map Brand.id) ∧
      (migrateBrandsLoop w brands [] s).2.createCalls = s.createCalls + brands.length) ∧
    (∀ (cats : List Category) (ps : List CategoryPayload) (s : MigState),
      (cats.map Category.id).Nodup →
      (migrateCategoriesLoop w cats [] ps s).1 =
        expectedMap w s.createCalls (cats.map Category.id) ∧
      (migrateCategoriesLoop w cats [] ps s).2.2.createCalls = s.createCalls + cats.length) ∧
    (∀ (ids : List Nat) (k0 k v : Nat),
      ((k, v) ∈ expectedMap w k0 ids ↔
        ∃ j, ids[j]? = some k ∧ w.createOutcome (k0 + j) = .success v)) := by
  refine ⟨?_, ?_, expectedMap_mem w⟩
  · intro brands s hnd
    have h := migrateBrandsLoop_map w brands [] s hnd (by simp)
    simpa using h
  · intro cats ps s hnd
    have h := migrateCategoriesLoop_map w cats [] ps s hnd (by simp)
    simpa using h

/-- Witness for C6 on a two-brand source with a failing second creation. -/
theorem identifier_map_confirmed_entries_witness :
    ((migrateBrandsLoop exFailWorld [⟨11, "Acme"⟩, ⟨12, "Bolt"⟩] [] exS0).1 =
      expectedMap exFailWorld exS0.createCalls ([⟨11, "Acme"⟩, ⟨12, "Bolt"⟩].map Brand.id) ∧
     (migrateBrandsLoop exFailWorld [⟨11, "Acme"⟩, ⟨12, "Bolt"⟩] [] exS0).2.createCalls =
      exS0.createCalls + 2) ∧
    ((1, 101) ∈ expectedMap exWorld 0 [1, 2, 3] ↔
      ∃ j, [1, 2, 3][j]? = some 1 ∧ exWorld.createOutcome (0 + j) = .success 101) := by
  constructor
  · exact (identifier_map_confirmed_entries exFailWorld).1 [⟨11, "Acme"⟩, ⟨12, "Bolt"⟩] exS0
      (by decide)
  · exact (identifier_map_confirmed_entries exWorld).2.2 [1, 2, 3] 0 1 101

/-- C7: for a paginated listing whose pages each report a next link
exactly when a later page exists, the fetcher returns exactly the
concatenation of all pages' items, in server order, with no state
change — no duplication, no gaps. -/
theorem fetcher_returns_all_pages {α : Type} (server : Nat → PageResp α)
    (endpoint : String) (pages : List (List α)) (fuel : Nat) (s : MigState)
    (hne : pages ≠ [])
    (hserver : ∀ j, j < pages.length →
      server (1 + j) = .ok (pages.getD j []) (decide (j + 1 < pages.length)))
    (hfuel : pages.length ≤ fuel) :
    fetchAllResources server endpoint fuel s = some (.ok pages.flatten, s) := by
  unfold fetchAllResources
  have h := fetchLoop_pages_ok server endpoint pages 1 fuel [] s hne hserver hfuel
  simpa using h

/-- Witness for C7: a two-page listing of one brand each. -/
theorem fetcher_returns_all_pages_witness :
    fetchAllResources exPagedServer "/catalog/brands" 2 exS0 =
      some (.ok ([[⟨1, "A"⟩], [⟨2, "B"⟩]] : List (List Brand)).flatten, exS0) :=
  fetcher_returns_all_pages exPagedServer "/catalog/brands" [[⟨1, "A"⟩], [⟨2, "B"⟩]] 2 exS0
    (by decide) (by decide) (by decide)

/-- C2: the destination product payload fixes `type` to `"physical"`,
defaults an absent weight to 0, carries the price through unchanged,
translates category references through the category map dropping unmapped
ones, and maps the brand reference to the mapped id or `null` (not an
error) when unmapped — stated for maps whose stored destination ids are
nonzero, as produced by a real destination store. -/
theorem product_payload_translation (w : World) (fuel : Nat)
    (brandMap categoryMap : List (Nat × Nat)) (s s1 : MigState) (products : List Product)
    (hfetch : fetchAllResources w.productServer "/catalog/products" fuel s =
      some (.ok products, s1))
    (hb : ∀ p ∈ brandMap, p.2 ≠ 0) (hc : ∀ p ∈ categoryMap, p.2 ≠ 0) :
    (∃ s2, migrateProducts w fuel brandMap categoryMap s =
      some (.ok (products.map (buildProductPayload brandMap categoryMap)), s2)) ∧
    (∀ pr : Product,
      (buildProductPayload brandMap categoryMap pr).type = "physical" ∧
      (buildProductPayload brandMap categoryMap pr).weight = pr.weight.getD 0 ∧
      (buildProductPayload brandMap categoryMap pr).price = pr.price ∧
      (buildProductPayload brandMap categoryMap pr).categories =
        specTranslateCategories categoryMap pr.categories ∧
      (buildProductPayload brandMap categoryMap pr).brand_id =
        mapGetOpt brandMap pr.brand_id) ∧
    ((buildProductPayload [] [(5, 50)] ⟨0, "p", 10, none, [5, 6], some 9⟩).categories = [50] ∧
     (buildProductPayload [] [(5, 50)] ⟨0, "p", 10, none, [5, 6], some 9⟩).brand_id = none) := by
  refine ⟨⟨(migrateProductsLoop w products brandMap categoryMap [] s1).2, ?_⟩, ?_, ?_⟩
  · simp only [migrateProducts, hfetch]
    rw [migrateProductsLoop_payloads]
    simp
  · intro pr
    refine ⟨rfl, ?_, rfl, ?_, ?_⟩
    · exact jsOr_zero pr.weight
    · exact buildProductPayload_categories_of_nonzero hc brandMap pr
    · exact buildProductPayload_brand_of_nonzero hb categoryMap pr
  · constructor <;> rfl

/-- Witness for C2 on a one-product source and concrete nonzero maps. -/
theorem product_payload_translation_witness :
    (∃ s2, migrateProducts exWorld 1 [(9, 90)] [(5, 50)] exS0 =
      some (.ok ([⟨21, "Widget", 10, none, [5, 6], some 9⟩].map
        (buildProductPayload [(9, 90)] [(5, 50)])), s2)) ∧
    (∀ pr : Product,
      (buildProductPayload [(9, 90)] [(5, 50)] pr).type = "physical" ∧
      (buildProductPayload [(9, 90)] [(5, 50)] pr).weight = pr.weight.getD 0 ∧
      (buildProductPayload [(9, 90)] [(5, 50)] pr).price = pr.price ∧
      (buildProductPayload [(9, 90)] [(5, 50)] pr).categories =
        specTranslateCategories [(5, 50)] pr.categories ∧
      (buildProductPayload [(9, 90)] [(5, 50)] pr).brand_id =
        mapGetOpt [(9, 90)] pr.brand_id) ∧
    ((buildProductPayload [] [(5, 50)] ⟨0, "p", 10, none, [5, 6], some 9⟩).categories = [50] ∧
     (buildProductPayload [] [(5, 50)] ⟨0, "p", 10, none, [5, 6], some 9⟩).brand_id = none) :=
  product_payload_translation exWorld 1 [(9, 90)] [(5, 50)] exS0 exS0
    [⟨21, "Widget", 10, none, [5, 6], some 9⟩] rfl (by decide) (by decide)

/-- C3: the orchestrator runs brands, then categories, then products, in
that order; a fetch error at any stage is caught, logged as a failed run,
and skips the remaining stages; every completed run — failed or not —
still reaches the reporting step. -/
theorem orchestrator_stage_order_and_failure (w : World) (fuel : Nat) (s : MigState) :
    (∀ r, runMigration w fuel s = some r → ∃ sMid, r = sendEmailLog w sMid) ∧
    (∀ e s1, migrateBrands w fuel (runStart s) = some (.error e, s1) →
      runMigration w fuel s = some (sendEmailLog w (log ("Migration failed: " ++ e) s1))) ∧
    (∀ brandMap s1 e s2,
      migrateBrands w fuel (runStart s) = some (.ok brandMap, s1) →
      migrateCategories w fuel
        (log ("Migrated " ++ toString brandMap.length ++ " brands") s1) =
        some (.error e, s2) →
      runMigration w fuel s = some (sendEmailLog w (log ("Migration failed: " ++ e) s2))) ∧
    (∀ brandMap s1 cats s2 e s3,
      migrateBrands w fuel (runStart s) = some (.ok brandMap, s1) →
      migrateCategories w fuel
        (log ("Migrated " ++ toString brandMap.length ++ " brands") s1) =
        some (.ok cats, s2) →
      migrateProducts w fuel brandMap cats.1
        (log ("Migrated " ++ toString cats.1.length ++ " categories") s2) =
        some (.error e, s3) →
      runMigration w fuel s = some (sendEmailLog w (log ("Migration failed: " ++ e) s3))) ∧
    (∀ brandMap s1 cats s2 pl s3,
      migrateBrands w fuel (runStart s) = some (.ok brandMap, s1) →
      migrateCategories w fuel
        (log ("Migrated " ++ toString brandMap.length ++ " brands") s1) =
        some (.ok cats, s2) →
      migrateProducts w fuel brandMap cats.1
        (log ("Migrated " ++ toString cats.1.length ++ " categories") s2) =
        some (.ok pl, s3) →
      runMigration w fuel s = some (sendEmailLog w (log "Migration completed" s3))) := by
  refine ⟨?_, ?_, ?_, ?_, ?_⟩
  · intro r h
    obtain ⟨sMid, hMid, _⟩ := runMigration_report w fuel s r.1 r.2 h
    exact ⟨sMid, hMid⟩
  · intro e s1 hbr
    simp only [runMigration, hbr]
  · intro brandMap s1 e s2 hbr hcat
    simp only [runMigration, hbr, hcat]
  · intro brandMap s1 cats s2 e s3 hbr hcat hprod
    simp only [runMigration, hbr, hcat, hprod]
  · intro brandMap s1 cats s2 pl s3 hbr hcat hprod
    simp only [runMigration, hbr, hcat, hprod]

/-- Witness for C3: a run whose brand fetch fails is caught, reported,
and the process does not crash. -/
theorem orchestrator_stage_order_and_failure_witness :
    runMigration exFailWorld 1 exS0 =
      some (sendEmailLog exFailWorld
        (log ("Migration failed: " ++ "Request failed with status code 500")
          (log ("Error fetching " ++ "/catalog/brands" ++ ": " ++
            "Request failed with status code 500") (runStart exS0)))) :=
  (orchestrator_stage_order_and_failure exFailWorld 1 exS0).2.1
    "Request failed with status code 500"
    (log ("Error fetching " ++ "/catalog/brands" ++ ": " ++
      "Request failed with status code 500") (runStart exS0)) rfl

/-- C10: the in-memory log buffer is reset at the start of every run, so
the run result is independent of whatever buffer an earlier run left
behind; the dispatched notification's log section is exactly the
concatenation, in logging order, of this run's entries — starting at the
run-start entry and excluding the notification-outcome entry appended
afterwards — while the persisted log file only accumulates. -/
theorem run_log_buffer_reset (w : World) (fuel : Nat) (s : MigState)
    (out : Option String) (s' : MigState)
    (h : runMigration w fuel s = some (out, s')) :
    (∀ l, runMigration w fuel { s with logs := l } = some (out, s')) ∧
    s'.logs.head? = some ("Starting migration..." ++ "\n") ∧
    (∃ t, s'.logFile = s.logFile ++ t) ∧
    (∀ c, out = some c →
      c = String.join s'.logs.dropLast ∧
      s'.logs.getLast? = some ("Email sent successfully" ++ "\n")) := by
  obtain ⟨sMid, hMid, hext⟩ := runMigration_report w fuel s out s' h
  obtain ⟨⟨t1, ht1⟩, ⟨u1, hu1⟩⟩ := hext
  have hstartlogs : (runStart s).logs = ["Starting migration..." ++ "\n"] := rfl
  have hstartfile : (runStart s).logFile = s.logFile ++ ["Starting migration..." ++ "\n"] := rfl
  have hout : out = (sendEmailLog w sMid).1 := congrArg Prod.fst hMid
  have hs2 : s' = (sendEmailLog w sMid).2 := congrArg Prod.snd hMid
  have hsendsnd : ∃ entry, (sendEmailLog w sMid).2 = log entry sMid := by
    cases hE : w.emailError with
    | none => exact ⟨"Email sent successfully", by simp [sendEmailLog, hE]⟩
    | some e => exact ⟨"Failed to send email: " ++ e, by simp [sendEmailLog, hE]⟩
  obtain ⟨entry, hentry⟩ := hsendsnd
  have hslogs : s'.logs =
      ("Starting migration..." ++ "\n") :: (t1 ++ [entry ++ "\n"]) := by
    rw [hs2, hentry]
    simp [log, ht1, hstartlogs]
  have hsfile : s'.logFile =
      s.logFile ++ (("Starting migration..." ++ "\n") :: (u1 ++ [entry ++ "\n"])) := by
    rw [hs2, hentry]
    simp [log, hu1, hstartfile]
  refine ⟨?_, ?_, ⟨_, hsfile⟩, ?_⟩
  · intro l
    have hsame : runMigration w fuel { s with logs := l } = runMigration w fuel s := rfl
    rw [hsame, h]
  · rw [hslogs]
    rfl
  · intro c hc
    cases hE : w.emailError with
    | some e =>
      have hnone : out = none := by
        rw [hout]
        simp [sendEmailLog, hE]
      rw [hc] at hnone
      cases hnone
    | none =>
      have h1 : out = some (String.join sMid.logs) := by
        rw [hout]
        simp [sendEmailLog, hE]
      rw [hc] at h1
      have hcj : c = String.join sMid.logs := Option.some.inj h1
      have hentry2 : (sendEmailLog w sMid).2 = log "Email sent successfully" sMid := by
        simp [sendEmailLog, hE]
      have hlogs2 : s'.logs = sMid.logs ++ ["Email sent successfully" ++ "\n"] := by
        rw [hs2, hentry2]
        simp [log]
      constructor
      · rw [hlogs2, List.dropLast_concat, hcj]
      · rw [hlogs2]
        exact List.getLast?_concat _

/-- Witness for C10: a run with a failing brand fetch and a successful
email dispatch, started from a state left over by an earlier run. -/
theorem run_log_buffer_reset_witness :
    (∀ l, runMigration exFailWorldMailOk 1 { exS0 with logs := l } =
      some (some ("Starting migration...\n" ++
        ("Error fetching /catalog/brands: Request failed with status code 500\n" ++
          ("Migration failed: Request failed with status code 500\n" ++ ""))),
        ⟨["Starting migration...\n",
          "Error fetching /catalog/brands: Request failed with status code 500\n",
          "Migration failed: Request failed with status code 500\n",
          "Email sent successfully\n"],
         ["Starting migration...\n",
          "Error fetching /catalog/brands: Request failed with status code 500\n",
          "Migration failed: Request failed with status code 500\n",
          "Email sent successfully\n"], 0⟩)) ∧
    (⟨["Starting migration...\n",
       "Error fetching /catalog/brands: Request failed with status code 500\n",
       "Migration failed: Request failed with status code 500\n",
       "Email sent successfully\n"],
      ["Starting migration...\n",
       "Error fetching /catalog/brands: Request failed with status code 500\n",
       "Migration failed: Request failed with status code 500\n",
       "Email sent successfully\n"], 0⟩ : MigState).logs.head? =
      some ("Starting migration..." ++ "\n") ∧
    (∃ t, (⟨["Starting migration...\n",
       "Error fetching /catalog/brands: Request failed with status code 500\n",
       "Migration failed: Request failed with status code 500\n",
       "Email sent successfully\n"],
      ["Starting migration...\n",
       "Error fetching /catalog/brands: Request failed with status code 500\n",
       "Migration failed: Request failed with status code 500\n",
       "Email sent successfully\n"], 0⟩ : MigState).logFile = exS0.logFile ++ t) ∧
    (∀ c, (some ("Starting migration...\n" ++
        ("Error fetching /catalog/brands: Request failed with status code 500\n" ++
          ("Migration failed: Request failed with status code 500\n" ++ ""))) :
        Option String) = some c →
      c = String.join (⟨["Starting migration...\n",
        "Error fetching /catalog/brands: Request failed with status code 500\n",
        "Migration failed: Request failed with status code 500\n",
        "Email sent successfully\n"],
       ["Starting migration...\n",
        "Error fetching /catalog/brands: Request failed with status code 500\n",
        "Migration failed: Request failed with status code 500\n",
        "Email sent successfully\n"], 0⟩ : MigState).logs.dropLast ∧
      (⟨["Starting migration...\n",
        "Error fetching /catalog/brands: Request failed with status code 500\n",
        "Migration failed: Request failed with status code 500\n",
        "Email sent successfully\n"],
       ["Starting migration...\n",
        "Error fetching /catalog/brands: Request failed with status code 500\n",
        "Migration failed: Request failed with status code 500\n",
        "Email sent successfully\n"], 0⟩ : MigState).logs.getLast? =
        some ("Email sent successfully" ++ "\n")) :=
  run_log_buffer_reset exFailWorldMailOk 1 exS0 _ _ rfl

end BCMig
